import Mathlib

/-!
Verification of the package-operation execution core of comm-kernel-manager.

The definitions below are shallow embeddings of the Python sources:
  core/kernel_manager.py  (KernelManager: install/remove threads, LTS feed)
  core/package_manager.py (PackageManager: install/remove/update threads)
  core/mesa_manager.py    (MesaManager: driver catalog and apply_driver)
Python floats are modelled as rationals, wall-clock timestamps as rationals
attached to each output line, subprocess callbacks as an explicit trace of
actions, and a Python exception escaping the line-processing loop as an
`Option String` carrying `str(e)`.
-/

namespace CKM

attribute [local semireducible] Rat.add Rat.mul Rat.inv Rat.sub

/-- Decides whether `pat` is a prefix of `cs` (character lists). -/
def isPrefixL : List Char → List Char → Bool
  | [], _ => true
  | _ :: _, [] => false
  | p :: ps, c :: cs => p == c && isPrefixL ps cs

/-- Decides whether `pat` occurs as a contiguous substring of `cs`. -/
def containsL (pat : List Char) : List Char → Bool
  | [] => isPrefixL pat []
  | c :: cs => isPrefixL pat (c :: cs) || containsL pat cs

/-- Python `pat in s` (substring test). -/
def strContains (s pat : String) : Bool := containsL pat.data s.data

/-- Python `s.strip()`: leading and trailing whitespace removed. -/
def pyStrip (s : String) : String :=
  String.mk (((s.data.dropWhile Char.isWhitespace).reverse.dropWhile Char.isWhitespace).reverse)

/-- Python `s.lower()` (ASCII reading). -/
def pyLower (s : String) : String := String.mk (s.data.map Char.toLower)

/-- Splits off the maximal leading run of decimal digits. -/
def digitsSpan : List Char → List Char × List Char
  | [] => ([], [])
  | c :: cs =>
    if c.isDigit then
      let (d, r) := digitsSpan cs
      (c :: d, r)
    else ([], c :: cs)

/-- Numeric value of a list of decimal digit characters. -/
def digitsToNat (ds : List Char) : Nat :=
  ds.foldl (fun a c => a * 10 + (c.toNat - 48)) 0

/-- Python `re.search(r"(\d+)%", line)`: the leftmost maximal digit run that is
immediately followed by a percent sign, as a number. -/
def percentTok : List Char → Option Nat
  | [] => none
  | c :: cs =>
    if c.isDigit then
      match digitsSpan (c :: cs) with
      | (d, '%' :: _) => some (digitsToNat d)
      | _ => percentTok cs
    else percentTok cs

/-- Python `re.search(r"\((\d+)/(\d+)\)", line)`: the leftmost
"(current/total)" token of a line. -/
def fracTok : List Char → Option (Nat × Nat)
  | [] => none
  | '(' :: cs =>
    (match digitsSpan cs with
     | (d1 :: ds1, '/' :: r2) =>
       match digitsSpan r2 with
       | (d2 :: ds2, ')' :: _) => some (digitsToNat (d1 :: ds1), digitsToNat (d2 :: ds2))
       | _ => fracTok cs
     | _ => fracTok cs)
  | _ :: cs => fracTok cs

/-- Python `\w` character class (ASCII reading). -/
def isWordChar (c : Char) : Bool := c.isAlphanum || c == '_'

/-- Splits off the maximal leading run of word characters. -/
def wordSpan : List Char → List Char × List Char
  | [] => ([], [])
  | c :: cs =>
    if isWordChar c then
      let (d, r) := wordSpan cs
      (c :: d, r)
    else ([], c :: cs)

/-- Character class `[\w\.\-]` of the package-version regex. -/
def isVerChar (c : Char) : Bool := isWordChar c || c == '.' || c == '-'

/-- Splits off the maximal leading run of `[\w\.\-]` characters. -/
def verSpan : List Char → List Char × List Char
  | [] => ([], [])
  | c :: cs =>
    if isVerChar c then
      let (d, r) := verSpan cs
      (c :: d, r)
    else ([], c :: cs)

/-- Python `re.search(r"(linux\w+)-(\d[\w\.\-]+)", line)`: leftmost match,
returning the two capture groups (package name, package version). -/
def pkgTok : List Char → Option (String × String)
  | [] => none
  | c :: cs =>
    if isPrefixL "linux".data (c :: cs) then
      match wordSpan ((c :: cs).drop 5) with
      | (w :: ws, '-' :: r2) =>
        (match r2 with
         | d :: r3 =>
           if d.isDigit then
             match verSpan r3 with
             | (v :: vs, _) =>
               some (String.mk ("linux".data ++ w :: ws), String.mk (d :: v :: vs))
             | _ => pkgTok cs
           else pkgTok cs
         | [] => pkgTok cs)
      | _ => pkgTok cs
    else pkgTok cs

/-- Round-half-even of a rational to an integer (Python float formatting). -/
def roundHalfEven (q : ℚ) : ℤ :=
  let f : ℤ := ⌊q⌋
  let r : ℚ := q - (f : ℚ)
  if r < 1/2 then f
  else if 1/2 < r then f + 1
  else if f % 2 = 0 then f else f + 1

/-- Python `f"{p:.0%}"`: percentage with zero decimals. -/
def formatPct0 (p : ℚ) : String := toString (roundHalfEven (p * 100)) ++ "%"

/-- Python `f"{x:.1f}"` for a float holding the integer `n`. -/
def formatFloat1 (n : Nat) : String := toString n ++ ".0"

/-- One observable action of an operation: a spawned subprocess (its argv), a
progress callback, an output-line callback, or the completion callback. -/
inductive Act where
  | spawn (argv : List String)
  | progress (fraction : ℚ) (status : Option String)
  | output (line : String)
  | complete (success : Bool)
deriving Repr, DecidableEq

/-- True exactly on completion actions. -/
def isCompleteAct : Act → Bool
  | .complete _ => true
  | _ => false

/-- True exactly on spawn actions. -/
def isSpawnAct : Act → Bool
  | .spawn _ => true
  | _ => false

/-- The argv of a spawn action, if any. -/
def spawnArgv : Act → Option (List String)
  | .spawn v => some v
  | _ => none

/-- All spawned argvs of a trace, in order. -/
def spawnsOf (l : List Act) : List (List String) := l.filterMap spawnArgv

/-- An output line of the child process together with its wall-clock arrival
time (the value `time.time()` takes while that line is handled). -/
structure TimedLine where
  t : ℚ
  raw : String
deriving Repr, DecidableEq

/-- Outcome of `subprocess.Popen` plus the child's behaviour: either the spawn
raises (with `str(e)`), or the child produces a line stream and an exit code. -/
inductive SpawnOutcome where
  | fail (err : String)
  | ok (lines : List TimedLine) (exitCode : ℤ)
deriving Repr, DecidableEq

/-! ## Kernel installation thread (`KernelManager._install_kernel_thread`) -/

/-- Parser state of `_install_kernel_thread`: the `downloading`/`installing`
flags, the retained `progress` value, and the two throttle timestamps. -/
structure InstState where
  downloading : Bool
  installing : Bool
  progress : ℚ
  lastProgressUpdate : ℚ
  lastLineTime : ℚ
deriving Repr, DecidableEq

/-- Initial parser state of the installation loop (`progress = 0.1`). -/
def instInit (t0 : ℚ) : InstState :=
  ⟨false, false, 1/10, t0, t0⟩

/-- The damped installing-progress formula `min(0.5 + progress * 0.1, 0.9)`
shared by `_install_kernel_thread`, `_install_package_thread` and
`_update_system_thread`. -/
def installStep (p : ℚ) : ℚ := min (1/2 + p * (1/10)) (9/10)

/-- Trigger of the downloading branch of `_install_kernel_thread`. -/
def instGuardDownloading (low : String) : Bool :=
  strContains low "downloading" || strContains low "baixando" || strContains low "download"

/-- Trigger of the `installing`-flag branch of `_install_kernel_thread`. -/
def instGuardInstalling (low : String) : Bool :=
  strContains low "installing" || strContains low "instalando"

/-- Trigger of the damped-step branch of `_install_kernel_thread`. -/
def instGuardInstalled (low : String) : Bool :=
  strContains low "installed" || strContains low "instalado"

/-- The downloading branch of `_install_kernel_thread`: percent token first,
then the "(current/total)" token (whose zero total raises), else a throttled
generic update. -/
def instDownloadBranch (st : InstState) (t : ℚ) (line : String) :
    InstState × List Act × Option String :=
  let st := { st with downloading := true }
  let (st, evA) :=
    match percentTok line.data with
    | some p =>
      let pr : ℚ := 1/10 + ((p : ℚ) / 100) * (4/10)
      ({ st with progress := pr },
       [Act.progress pr (some ("Downloading: " ++ formatFloat1 p ++ "%"))])
    | none => (st, [])
  match fracTok line.data with
  | some (c, tot) =>
    if tot = 0 then (st, evA, some "division by zero")
    else
      let pr : ℚ := 1/10 + ((c : ℚ) / (tot : ℚ)) * (4/10)
      ({ st with progress := pr },
       evA ++ [Act.progress pr
         (some ("Downloading packages (" ++ toString c ++ "/" ++ toString tot ++ ")..."))],
       none)
  | none =>
    if t - st.lastProgressUpdate > 1 then
      ({ st with lastProgressUpdate := t },
       evA ++ [Act.progress st.progress (some "Downloading packages...")], none)
    else (st, evA, none)

/-- The main `elif` chain of `_install_kernel_thread` on one stripped line.
Returns the new state, the emitted actions, and `some msg` when the Python
body raises (division by zero on a `(n/0)` token). -/
def instChain (st : InstState) (t : ℚ) (line low : String) :
    InstState × List Act × Option String :=
  if instGuardDownloading low then
    instDownloadBranch st t line
  else if instGuardInstalling low then
    ({ st with installing := true },
     [Act.progress (1/2) (some "Installing kernel...")], none)
  else if st.installing && instGuardInstalled low then
    let pr := installStep st.progress
    ({ st with progress := pr }, [Act.progress pr (some "Installing...")], none)
  else if strContains low "generating grub configuration file"
       || strContains low "gerando arquivo de configuração do grub" then
    (st, [Act.progress (9/10) (some "Updating bootloader...")], none)
  else if strContains low "synchronizing package databases"
       || strContains low "sincronizando bases de dados de pacotes" then
    (st, [Act.progress (1/10) (some "Synchronizing package databases...")], none)
  else if strContains low "checking dependencies"
       || strContains low "verificando dependências" then
    (st, [Act.progress (2/10) (some "Checking dependencies...")], none)
  else if strContains low "checking for file conflicts"
       || strContains low "verificando conflitos de arquivos" then
    (st, [Act.progress (4/10) (some "Checking for file conflicts...")], none)
  else if strContains low "total download size"
       || strContains low "tamanho total de download" then
    (st, [Act.output ("➡️ " ++ line)], none)
  else (st, [], none)

/-- Processing of one timed output line by `_install_kernel_thread`: verbatim
forwarding, the main chain, the package-name/error chain, the half-second
progress re-emission and the five-second liveness message. -/
def instLineStep (st : InstState) (tl : TimedLine) : InstState × List Act × Option String :=
  let line := pyStrip tl.raw
  let low := pyLower line
  let fwd : List Act := if line ≠ "" then [Act.output line] else []
  let st1 := if line ≠ "" then { st with lastLineTime := tl.t } else st
  match instChain st1 tl.t line low with
  | (st2, ev1, some m) => (st2, fwd ++ ev1, some m)
  | (st2, ev1, none) =>
    let ev2 : List Act :=
      match pkgTok line.data with
      | some (nm, ver) =>
        if st2.installing then
          [Act.progress st2.progress (some ("Installing " ++ nm ++ " " ++ ver))]
        else if strContains low "error:" then [Act.output ("❌ ERROR: " ++ line)]
        else []
      | none =>
        if strContains low "error:" then [Act.output ("❌ ERROR: " ++ line)] else []
    let s3 := if tl.t - st2.lastProgressUpdate > 1/2 then
        { st2 with lastProgressUpdate := tl.t } else st2
    let ev3 : List Act := if tl.t - st2.lastProgressUpdate > 1/2 then
        [Act.progress st2.progress none] else []
    let s4 := if tl.t - s3.lastLineTime > 5 then
        { s3 with lastLineTime := tl.t } else s3
    let ev4 : List Act := if tl.t - s3.lastLineTime > 5 then
        [Act.output ("Still working... (last action: " ++ formatPct0 s3.progress ++ " complete)")]
      else []
    (s4, fwd ++ ev1 ++ ev2 ++ ev3 ++ ev4, none)

/-- Runs the line loop of `_install_kernel_thread` over the child's output,
stopping early (with the exception message) when a line raises. -/
def instRunLines (st : InstState) : List TimedLine → List Act × Option String
  | [] => ([], none)
  | l :: ls =>
    match instLineStep st l with
    | (st2, evs, none) =>
      let r := instRunLines st2 ls
      (evs ++ r.1, r.2)
    | (_, evs, some m) => (evs, some m)

/-- The installation argv `[pkexec, pacman, -S, --noconfirm] + packages`. -/
def installCmd (packages : List String) : List String :=
  ["pkexec", "pacman", "-S", "--noconfirm"] ++ packages

/-- Actions of `_install_kernel_thread` preceding the `Popen` call. -/
def installPre (firstPkg : String) (modules : List String) : List Act :=
  [Act.output "Thread started for kernel installation...",
   Act.progress (1/10) (some ("Starting installation of " ++ firstPkg ++ " and modules...")),
   Act.output ("Running command: " ++ String.intercalate " " (installCmd (firstPkg :: modules))),
   Act.output "Creating subprocess...",
   Act.spawn (installCmd (firstPkg :: modules))]

/-- Full action trace of `_install_kernel_thread` for packages
`[firstPkg, modules...]`, given the spawn outcome. -/
def installKernelThread (firstPkg : String) (modules : List String) (t0 : ℚ)
    (sp : SpawnOutcome) : List Act :=
  installPre firstPkg modules ++
  match sp with
  | .fail e =>
    [Act.progress 0 (some ("Error: " ++ e)),
     Act.output ("❌ Error: " ++ e),
     Act.complete false]
  | .ok lines code =>
    Act.output "Subprocess created successfully..." ::
    match instRunLines (instInit t0) lines with
    | (evs, some m) =>
      evs ++ [Act.progress 0 (some ("Error: " ++ m)),
              Act.output ("❌ Error: " ++ m),
              Act.complete false]
    | (evs, none) =>
      evs ++ [Act.output "Process completed, checking exit code..."] ++
      (if code == 0 then
        [Act.progress 1 (some "Kernel installation complete!"),
         Act.output "✅ Installation completed successfully."]
       else
        [Act.progress 0 (some "Kernel installation failed."),
         Act.output ("❌ Installation failed with return code " ++ toString code ++ ".")]) ++
      [Act.complete (code == 0)]

/-! ## Kernel removal (`KernelManager.remove_kernel` / `_remove_kernel_thread`) -/

/-- Parser state of `_remove_kernel_thread`. -/
structure RemState where
  progress : ℚ
  lastProgressUpdate : ℚ
  lastLineTime : ℚ
  removalStep : ℕ
  packagesProcessed : ℕ
deriving Repr, DecidableEq

/-- Trigger of the checking-dependencies branch of `_remove_kernel_thread`. -/
def remGuardDeps (low : String) : Bool :=
  strContains low "checking dependencies" || strContains low "verificando dependências"

/-- Trigger of the conflicting-packages branch of `_remove_kernel_thread`. -/
def remGuardConfl (low : String) : Bool :=
  strContains low "looking for conflicting packages"
    || strContains low "procurando por pacotes conflitantes"

/-- Trigger of the removing branch of `_remove_kernel_thread`. -/
def remGuardRemoving (low : String) : Bool :=
  strContains low "removing" || strContains low "removendo"

/-- True when `_remove_kernel_thread` counts this line as a removed package
(the removing branch fires: its trigger matches and no earlier branch does). -/
def isRemovingLine (tl : TimedLine) : Bool :=
  let low := pyLower (pyStrip tl.raw)
  !remGuardDeps low && !remGuardConfl low && remGuardRemoving low

/-- The main `elif` chain of `_remove_kernel_thread` on one stripped line,
with `n` the fixed `total_packages`. -/
def remChain (n : ℕ) (st : RemState) (line low : String) : RemState × List Act :=
  if remGuardDeps low then
    ({ st with progress := 2/10, removalStep := 1 },
     [Act.progress (2/10) (some "Checking dependencies...")])
  else if remGuardConfl low then
    ({ st with progress := 3/10, removalStep := 2 },
     [Act.progress (3/10) (some "Looking for conflicting packages...")])
  else if remGuardRemoving low then
    let k := st.packagesProcessed + 1
    let pr : ℚ := if 0 < n then 3/10 + ((k : ℚ) / (n : ℚ)) * (4/10) else 1/2
    ({ st with packagesProcessed := k, progress := pr, removalStep := 3 },
     [Act.progress pr
       (some ("Removing packages (" ++ toString k ++ "/" ++ toString n ++ ")..."))])
  else if strContains low "running post-transaction hooks"
       || strContains low "executando hooks pós-transação" then
    ({ st with progress := 8/10, removalStep := 4 },
     [Act.progress (8/10) (some "Running post-transaction hooks...")])
  else if strContains low "generating grub configuration file"
       || strContains low "gerando arquivo de configuração do grub" then
    ({ st with progress := 9/10, removalStep := 5 },
     [Act.progress (9/10) (some "Updating bootloader...")])
  else if strContains low "error:" then
    (st, [Act.output ("ERROR: " ++ line)])
  else if strContains low "image" && strContains low "found" then
    ({ st with progress := 85/100 },
     [Act.progress (85/100) (some "Updating bootloader information...")])
  else (st, [])

/-- The half-second progress re-emission of `_remove_kernel_thread`. -/
def remPeriodic (st : RemState) (t : ℚ) : RemState × List Act :=
  if t - st.lastProgressUpdate > 1/2 then
    ({ st with lastProgressUpdate := t }, [Act.progress st.progress none])
  else (st, [])

/-- The five-second liveness message of `_remove_kernel_thread`. -/
def remLiveness (st : RemState) (t : ℚ) : RemState × List Act :=
  if t - st.lastLineTime > 5 then
    ({ st with lastLineTime := t },
     [Act.output ("Still working... (removal step " ++ toString st.removalStep ++ ", "
       ++ formatPct0 st.progress ++ " complete)")])
  else (st, [])

/-- Processing of one timed output line by `_remove_kernel_thread`. -/
def remLineStep (n : ℕ) (st : RemState) (tl : TimedLine) : RemState × List Act :=
  let line := pyStrip tl.raw
  let low := pyLower line
  let fwd : List Act := if line ≠ "" then [Act.output line] else []
  let st1 := if line ≠ "" then { st with lastLineTime := tl.t } else st
  let (st2, ev1) := remChain n st1 line low
  let (s3, ev3) := remPeriodic st2 tl.t
  let (s4, ev4) := remLiveness s3 tl.t
  (s4, fwd ++ ev1 ++ ev3 ++ ev4)

/-- Runs the line loop of `_remove_kernel_thread`. -/
def remRunLines (n : ℕ) (st : RemState) : List TimedLine → RemState × List Act
  | [] => (st, [])
  | l :: ls =>
    let (st2, evs) := remLineStep n st l
    let (st3, rest) := remRunLines n st2 ls
    (st3, evs ++ rest)

/-- The removal argv `[pkexec, pacman, -R, --noconfirm] + packages`. -/
def removeCmd (packages : List String) : List String :=
  ["pkexec", "pacman", "-R", "--noconfirm"] ++ packages

/-- Full action trace of `_remove_kernel_thread` on an already-filtered
package list: empty list short-circuits to `complete(true)` with no spawn. -/
def removeKernelThread (packages : List String) (t0 : ℚ) (sp : SpawnOutcome) : List Act :=
  if packages = [] then
    [Act.output "No packages to remove.", Act.complete true]
  else
    [Act.output "Thread started for kernel removal...",
     Act.progress (1/10)
       (some ("Starting removal of " ++ packages.headD "" ++ " and modules...")),
     Act.output ("Running command: " ++ String.intercalate " " (removeCmd packages)),
     Act.output "Creating subprocess...",
     Act.spawn (removeCmd packages)] ++
    match sp with
    | .fail e =>
      [Act.progress 0 (some ("Error: " ++ e)),
       Act.output ("Error: " ++ e),
       Act.complete false]
    | .ok lines code =>
      Act.output "Subprocess created successfully..." ::
      (remRunLines packages.length ⟨1/10, t0, t0, 0, 0⟩ lines).2 ++
      [Act.output "Process completed, checking exit code..."] ++
      (if code == 0 then
        [Act.progress 1 (some "Kernel removal complete!"),
         Act.output "Removal completed successfully."]
       else
        [Act.progress 0 (some "Kernel removal failed."),
         Act.output ("Removal failed with return code " ++ toString code ++ ".")]) ++
      [Act.complete (code == 0)]

/-- `KernelManager.remove_kernel`: computes `[name, name-headers]`, keeps only
the currently-installed members (`pacman -Q` success modelled as membership in
`installed`), and hands the filtered list to the removal thread. -/
def removeKernel (installed : List String) (kernelName : String) (t0 : ℚ)
    (sp : SpawnOutcome) : List Act :=
  let packages := [kernelName, kernelName ++ "-headers"]
  let installedPackages := packages.filter (fun p => installed.contains p)
  removeKernelThread installedPackages t0 sp

/-! ## Mesa manager (`MesaManager`) -/

/-- One entry of the static driver catalog of `MesaManager`. -/
structure MesaDriver where
  id : String
  name : String
  packages : List String
  conflicts : List String
  description : String
deriving Repr, DecidableEq

/-- The driver catalog defined in `MesaManager._define_available_drivers`,
in source order. -/
def mesaDrivers : List MesaDriver :=
  [⟨"amber", "Amber", ["mesa-amber"], ["mesa", "mesa-git", "mesa-tkg-git"],
    "Stable and well-tested version of Mesa"⟩,
   ⟨"stable", "Stable", ["mesa"], ["mesa-amber", "mesa-git", "mesa-tkg-git"],
    "Regular Mesa release"⟩,
   ⟨"tkg-stable", "Tkg-Stable", ["mesa-tkg"], ["mesa", "mesa-amber", "mesa-git", "mesa-tkg-git"],
    "Enhanced performance build of stable Mesa"⟩,
   ⟨"tkg-git", "Tkg-git", ["mesa-tkg-git"], ["mesa", "mesa-amber", "mesa-tkg"],
    "Latest development version with cutting-edge features"⟩]

/-- True when one of the driver's packages is currently installed. -/
def hasInstalledPackage (installedNames : List String) (d : MesaDriver) : Bool :=
  d.packages.any fun p => installedNames.contains p

/-- `MesaManager._get_active_driver`: first catalog driver with an installed
package, defaulting to `"stable"`. -/
def getActiveDriver (installedNames : List String) : String :=
  match mesaDrivers.find? (hasInstalledPackage installedNames) with
  | some d => d.id
  | none => "stable"

/-- `MesaManager.get_available_drivers`: the catalog with each driver paired
with its derived `active` mark. -/
def getAvailableDrivers (installedNames : List String) : List (MesaDriver × Bool) :=
  mesaDrivers.map fun d => (d, d.id == getActiveDriver installedNames)

/-- Child-process behaviour of one mesa-phase subprocess (mesa's loops read
untimed lines). -/
inductive MesaRun where
  | fail (err : String)
  | ok (lines : List String) (exitCode : ℤ)
deriving Repr, DecidableEq

/-- Progress events of the conflict-removal loop of `_apply_driver_thread`:
each line containing "removing" re-emits the fixed 0.3 fraction. -/
def mesaRemoveEvents : List String → List Act
  | [] => []
  | l :: ls =>
    (if strContains (pyLower l) "removing" then
      [Act.progress (3/10) (some "Removing conflicting packages...")]
     else []) ++ mesaRemoveEvents ls

/-- Parser state of the install phase of `_apply_driver_thread`. -/
structure MesaInstState where
  installing : Bool
  progress : ℚ
deriving Repr, DecidableEq

/-- Processing of one output line by the install phase of
`_apply_driver_thread` (download band 0.4–0.7, install band 0.7–0.9). -/
def mesaInstallLineStep (st : MesaInstState) (line : String) :
    MesaInstState × List Act × Option String :=
  if strContains line "Downloading" && strContains line "%" then
    match fracTok line.data with
    | some (c, tot) =>
      if tot = 0 then (st, [], some "division by zero")
      else
        let pr : ℚ := 4/10 + ((c : ℚ) / (tot : ℚ)) * (3/10)
        ({ st with progress := pr },
         [Act.progress pr
           (some ("Downloading packages (" ++ toString c ++ "/" ++ toString tot ++ ")..."))],
         none)
    | none => (st, [], none)
  else if strContains line "Installing" then
    ({ st with installing := true },
     [Act.progress (7/10) (some "Installing packages...")], none)
  else if st.installing && strContains (pyLower line) "installing" then
    let pr : ℚ := min (7/10 + st.progress * (1/10)) (9/10)
    ({ st with progress := pr }, [Act.progress pr (some "Installing...")], none)
  else (st, [], none)

/-- Runs the install-phase line loop of `_apply_driver_thread`. -/
def mesaRunLines (st : MesaInstState) : List String → List Act × Option String
  | [] => ([], none)
  | l :: ls =>
    match mesaInstallLineStep st l with
    | (st2, evs, none) =>
      let r := mesaRunLines st2 ls
      (evs ++ r.1, r.2)
    | (_, evs, some m) => (evs, some m)

/-- The install phase of `_apply_driver_thread` for a chosen driver. -/
def mesaInstallPhase (d : MesaDriver) (iOut : MesaRun) : List Act :=
  [Act.progress (4/10) (some ("Installing " ++ d.name ++ " packages...")),
   Act.spawn (["pkexec", "pacman", "-S", "--noconfirm"] ++ d.packages)] ++
  match iOut with
  | .fail e => [Act.progress 0 (some ("Error: " ++ e)), Act.complete false]
  | .ok lines code =>
    match mesaRunLines ⟨false, 4/10⟩ lines with
    | (evs, some m) =>
      evs ++ [Act.progress 0 (some ("Error: " ++ m)), Act.complete false]
    | (evs, none) =>
      evs ++
      (if code == 0 then
        [Act.progress 1 (some "Driver applied successfully!"), Act.complete true]
       else
        [Act.progress 0 (some "Failed to install packages."), Act.complete false])

/-- Full action trace of `MesaManager._apply_driver_thread`: conflict-removal
phase (only over installed conflicts) followed by the install phase, aborting
with `complete(false)` when the removal subprocess exits non-zero. -/
def applyDriverThread (installed : List String) (d : MesaDriver)
    (rOut iOut : MesaRun) : List Act :=
  [Act.progress (1/10) (some ("Applying " ++ d.name ++ " driver..."))] ++
  (if d.conflicts ≠ [] then
    let ic := d.conflicts.filter (fun c => installed.contains c)
    [Act.progress (2/10) (some "Removing conflicting packages...")] ++
    (if ic ≠ [] then
      Act.spawn (["pkexec", "pacman", "-Rs", "--noconfirm"] ++ ic) ::
      match rOut with
      | .fail e => [Act.progress 0 (some ("Error: " ++ e)), Act.complete false]
      | .ok lines code =>
        mesaRemoveEvents lines ++
        (if code ≠ 0 then
          [Act.progress 0 (some "Failed to remove conflicting packages."),
           Act.complete false]
         else mesaInstallPhase d iOut)
     else mesaInstallPhase d iOut)
   else mesaInstallPhase d iOut)

/-- `MesaManager.apply_driver`: resolves the driver id in the catalog; an
unknown id completes with failure synchronously, spawning nothing. -/
def applyDriver (installed : List String) (driverId : String)
    (rOut iOut : MesaRun) : List Act :=
  match mesaDrivers.find? (fun d => d.id == driverId) with
  | none => [Act.complete false]
  | some d => applyDriverThread installed d rOut iOut

/-! ## LTS version feed (`KernelManager._get_lts_kernel_versions`) -/

/-- The hardcoded fallback returned when the feed fetch raises. -/
def ltsFallback : List String := ["66", "612", "614"]

/-- An `<item>`'s title in the kernel.org feed: missing element, element with
no text (Python `None`, whose use raises), or element text. -/
inductive XmlTitle where
  | absent
  | noText
  | text (s : String)
deriving Repr, DecidableEq

/-- Outcome of `ElementTree.fromstring` on the response body. -/
inductive XmlParse where
  | malformed
  | items (titles : List XmlTitle)
deriving Repr, DecidableEq

/-- Outcome of `requests.get` on the feed URL: an exception (network error or
timeout), or a response with an HTTP status and a body. -/
inductive LtsFetch where
  | exc
  | resp (status : ℕ) (body : XmlParse)
deriving Repr, DecidableEq

/-- Python `re.match(r"(\d+\.\d+).*: longterm", s)`: the leading
`major.minor` group when the title also carries the longterm marker on the
same line. -/
def matchLongterm (s : String) : Option String :=
  match digitsSpan s.data with
  | (d1 :: ds1, '.' :: r2) =>
    match digitsSpan r2 with
    | (d2 :: ds2, r3) =>
      if containsL (": longterm").data (r3.takeWhile (fun c => c ≠ '\n')) then
        some (String.mk ((d1 :: ds1) ++ '.' :: (d2 :: ds2)))
      else none
    | _ => none
  | _ => none

/-- Python `version.replace(".", "")`. -/
def removeDots (s : String) : String := String.mk (s.data.filter (fun c => c ≠ '.'))

/-- The title-collection loop of `_get_lts_kernel_versions`; `none` models the
`TypeError` raised by `": longterm" in None`. -/
def collectLts : List XmlTitle → Option (List String)
  | [] => some []
  | .absent :: rest => collectLts rest
  | .noText :: _ => none
  | .text s :: rest =>
    (collectLts rest).map fun tail =>
      (if strContains s ": longterm" then
        match matchLongterm s with
        | some v => [removeDots v]
        | none => []
       else []) ++ tail

/-- `KernelManager._get_lts_kernel_versions` as a function of the fetch
outcome: any raised exception is caught and yields the hardcoded fallback;
a non-200 status yields the (empty) accumulator. -/
def getLtsKernelVersions (f : LtsFetch) : List String :=
  match f with
  | .exc => ltsFallback
  | .resp status body =>
    if status = 200 then
      match body with
      | .malformed => ltsFallback
      | .items titles =>
        match collectLts titles with
        | some vs => vs
        | none => ltsFallback
    else []

/-! ## Theorems -/

lemma installStep_bounds (p : ℚ) (h0 : 0 ≤ p) :
    1/2 ≤ installStep p ∧ installStep p ≤ 9/10 := by
  constructor
  · exact le_min (by linarith) (by norm_num)
  · exact min_le_right _ _

/-- C8: starting from any retained progress in [0,1], every recurrence of the
damped installing step `min(0.5 + progress*0.1, 0.9)` yields a value confined
to the 0.5–0.9 band, for any number of recurrences. -/
theorem installing_band_confined (p : ℚ) (h0 : 0 ≤ p) (h1 : p ≤ 1) :
    ∀ n : ℕ, 1/2 ≤ Nat.iterate installStep (n + 1) p
      ∧ Nat.iterate installStep (n + 1) p ≤ 9/10 := by
  intro n
  induction n with
  | zero => simpa using installStep_bounds p h0
  | succ k ih =>
    have h := installStep_bounds (Nat.iterate installStep (k + 1) p) (by linarith [ih.1])
    rw [Function.iterate_succ_apply']
    exact h

/-- Witness for C8 at the concrete start value 1/2. -/
theorem installing_band_confined_witness :
    (0 ≤ (1/2 : ℚ)) ∧ ((1/2 : ℚ) ≤ 1) ∧
    (1/2 ≤ Nat.iterate installStep 1 (1/2 : ℚ)
      ∧ Nat.iterate installStep 1 (1/2 : ℚ) ≤ 9/10) :=
  ⟨by norm_num, by norm_num, installing_band_confined (1/2) (by norm_num) (by norm_num) 0⟩

/-- C4: removing a kernel whose package pair (name and name-headers) is fully
absent from the installed set completes with success immediately and spawns
no subprocess. -/
theorem removeKernel_absent_noop (installed : List String) (k : String) (t0 : ℚ)
    (sp : SpawnOutcome)
    (h1 : k ∉ installed)
    (h2 : k ++ "-headers" ∉ installed) :
    removeKernel installed k t0 sp
        = [Act.output "No packages to remove.", Act.complete true] ∧
    (removeKernel installed k t0 sp).countP isSpawnAct = 0 := by
  have hfil : List.filter (fun p => installed.contains p) [k, k ++ "-headers"] = [] := by
    simp [List.filter, h1, h2]
  have he : removeKernel installed k t0 sp
      = [Act.output "No packages to remove.", Act.complete true] := by
    show removeKernelThread
      (List.filter (fun p => installed.contains p) [k, k ++ "-headers"]) t0 sp = _
    rw [hfil]
    rfl
  refine ⟨he, ?_⟩
  rw [he]
  rfl

/-- Witness for C4: a concrete absent kernel. -/
theorem removeKernel_absent_noop_witness :
    ("linux61" ∉ ["vim"]) ∧
    ("linux61" ++ "-headers" ∉ ["vim"]) ∧
    (removeKernel ["vim"] "linux61" 0 (.fail "unused")
        = [Act.output "No packages to remove.", Act.complete true] ∧
     (removeKernel ["vim"] "linux61" 0 (.fail "unused")).countP isSpawnAct = 0) :=
  ⟨by decide, by decide,
   removeKernel_absent_noop ["vim"] "linux61" 0 (.fail "unused") (by decide) (by decide)⟩

/-- C10: the driver listing marks exactly one driver active, namely the first
catalog driver with an installed package, or "stable" when none is. -/
theorem drivers_exactly_one_active (installed : List String) :
    ((getAvailableDrivers installed).countP fun x => x.2) = 1 ∧
    (∀ d, mesaDrivers.find? (hasInstalledPackage installed) = some d →
      getActiveDriver installed = d.id) ∧
    (mesaDrivers.find? (hasInstalledPackage installed) = none →
      getActiveDriver installed = "stable") := by
  refine ⟨?_, ?_, ?_⟩
  · have hmem : getActiveDriver installed = "amber" ∨ getActiveDriver installed = "stable"
        ∨ getActiveDriver installed = "tkg-stable" ∨ getActiveDriver installed = "tkg-git" := by
      unfold getActiveDriver
      cases h : mesaDrivers.find? (hasInstalledPackage installed) with
      | none => simp
      | some d =>
        have hd := List.mem_of_find?_eq_some h
        fin_cases hd <;> simp
    unfold getAvailableDrivers
    rw [List.countP_map]
    rcases hmem with h | h | h | h <;> rw [h] <;> decide
  · intro d h
    unfold getActiveDriver
    rw [h]
  · intro h
    unfold getActiveDriver
    rw [h]

/-- Witness for C10: with mesa-amber installed, amber alone is active. -/
theorem drivers_exactly_one_active_witness :
    ((getAvailableDrivers ["mesa-amber"]).countP fun x => x.2) = 1 ∧
    getActiveDriver ["mesa-amber"] = "amber" :=
  ⟨(drivers_exactly_one_active ["mesa-amber"]).1,
   (drivers_exactly_one_active ["mesa-amber"]).2.1
     ⟨"amber", "Amber", ["mesa-amber"], ["mesa", "mesa-git", "mesa-tkg-git"],
      "Stable and well-tested version of Mesa"⟩ (by decide)⟩

/-- C1 counterexample: in kernel removal of a single package, two lines
containing "removing" drive the fraction 0.3 + (2/1)*0.4 = 1.1 above 1.0 —
the fraction is not clamped to [0,1]. -/
theorem removal_fraction_exceeds_one :
    Act.progress (11/10) (some "Removing packages (2/1)...") ∈
      removeKernelThread ["linux61"] 0
        (.ok [⟨1, "removing linux61..."⟩, ⟨2, "removing boot entries..."⟩] 0) ∧
    ¬ (11/10 : ℚ) ≤ 1 := by decide

/-- C2 counterexample: a streamed line carrying a "(1/0)" token raises a
division-by-zero inside the loop, so the thread completes with failure even
though the child's exit code is 0. -/
theorem install_divzero_completes_false :
    (installKernelThread "linux61" [] 0
        (.ok [⟨0, "downloading (1/0)"⟩] 0)).getLast? = some (Act.complete false) ∧
    ((0 : ℤ) == 0) = true := by decide

/-- C3 counterexample: the conflict-removal phase of applyDriver spawns
`pacman -Rs --noconfirm mesa`; no spawned argv contains the element "-R". -/
theorem applyDriver_remove_uses_Rs :
    spawnsOf (applyDriver ["mesa"] "tkg-git" (.ok ["removing mesa..."] 0) (.ok [] 0)) =
      [["pkexec", "pacman", "-Rs", "--noconfirm", "mesa"],
       ["pkexec", "pacman", "-S", "--noconfirm", "mesa-tkg-git"]] ∧
    (∀ a ∈ spawnsOf (applyDriver ["mesa"] "tkg-git"
        (.ok ["removing mesa..."] 0) (.ok [] 0)), ¬ "-R" ∈ a) := by decide

/-- C5 counterexample: a non-200 HTTP status does not degrade to the
hardcoded fallback list; it yields the empty accumulator. -/
theorem lts_non200_empty :
    getLtsKernelVersions (.resp 404 (.items [])) = [] ∧
    getLtsKernelVersions (.resp 404 (.items [])) ≠ ltsFallback := by decide

/-- C7 counterexample: a downloading line carrying both a "(1/4)" token and a
"50%" token emits a percent-derived fraction 0.3 in addition to the
(current/total)-derived 0.2 — the percent token is used even though a
"(n/total)" token is present. -/
theorem download_percent_used_with_frac :
    Act.progress (3/10) (some "Downloading: 50.0%") ∈
      installKernelThread "linux61" [] 0 (.ok [⟨0, "downloading (1/4) 50%"⟩] 0) ∧
    fracTok "downloading (1/4) 50%".data = some (1, 4) ∧
    (3/10 : ℚ) ≠ 1/10 + ((1 : ℚ) / (4 : ℚ)) * (4/10) := by decide

/-- C9 counterexample: a line with an "error:" marker that also carries
"download (3/0)" raises division by zero, so the run completes with failure
although the exit code is 0 — the error line by itself changed the result. -/
theorem error_line_flips_result :
    (installKernelThread "linux61" [] 0
        (.ok [⟨0, "error: failed download (3/0)"⟩] 0)).getLast?
      = some (Act.complete false) ∧
    strContains (pyLower "error: failed download (3/0)") "error:" = true ∧
    ((0 : ℤ) == 0) = true := by decide

/-- C6: evaluation at the failing input — a ten-second silent gap between two
lines produces no "Still working..." synthetic message and only a single
(fraction, None) re-emission; the liveness checks run only when a new line
arrives. -/
theorem liveness_checks_only_on_new_lines :
    installKernelThread "linux61" ["linux61-headers"] 0
        (.ok [⟨0, "abc"⟩, ⟨10, "def"⟩] 0) =
      [Act.output "Thread started for kernel installation...",
       Act.progress (1/10) (some "Starting installation of linux61 and modules..."),
       Act.output "Running command: pkexec pacman -S --noconfirm linux61 linux61-headers",
       Act.output "Creating subprocess...",
       Act.spawn ["pkexec", "pacman", "-S", "--noconfirm", "linux61", "linux61-headers"],
       Act.output "Subprocess created successfully...",
       Act.output "abc",
       Act.output "def",
       Act.progress (1/10) none,
       Act.output "Process completed, checking exit code...",
       Act.progress 1 (some "Kernel installation complete!"),
       Act.output "✅ Installation completed successfully.",
       Act.complete true] ∧
    ((installKernelThread "linux61" ["linux61-headers"] 0
        (.ok [⟨0, "abc"⟩, ⟨10, "def"⟩] 0)).countP
      (fun a => match a with
        | Act.output s => isPrefixL "Still working".data s.data
        | _ => false)) = 0 := by decide

/-- C5 (amended): exceptions of the fetch, XML parse failures and missing
title text all degrade to the hardcoded fallback list and never raise, while
a non-200 HTTP status yields the empty list; in all cases a list is returned,
so kernel listing is never blocked. -/
theorem lts_failure_modes :
    getLtsKernelVersions .exc = ltsFallback ∧
    getLtsKernelVersions (.resp 200 .malformed) = ltsFallback ∧
    (∀ titles, XmlTitle.noText ∈ titles →
      getLtsKernelVersions (.resp 200 (.items titles)) = ltsFallback) ∧
    (∀ status body, status ≠ 200 → getLtsKernelVersions (.resp status body) = []) := by
  refine ⟨rfl, rfl, ?_, ?_⟩
  · intro titles h
    have hc : collectLts titles = none := by
      induction titles with
      | nil => cases h
      | cons t rest ih =>
        cases t with
        | absent =>
          cases h with
          | tail _ h => simpa [collectLts] using ih h
        | noText => simp [collectLts]
        | text s =>
          cases h with
          | tail _ h => simp [collectLts, ih h]
    simp [getLtsKernelVersions, hc]
  · intro status body h
    simp [getLtsKernelVersions, h]

/-- Witness for C5 (amended) at concrete failure inputs. -/
theorem lts_failure_modes_witness :
    (XmlTitle.noText ∈ [XmlTitle.noText]) ∧
    getLtsKernelVersions (.resp 200 (.items [XmlTitle.noText])) = ltsFallback ∧
    ((404 : ℕ) ≠ 200) ∧
    getLtsKernelVersions (.resp 404 .malformed) = [] :=
  ⟨by decide, lts_failure_modes.2.2.1 [XmlTitle.noText] (by decide),
   by decide, lts_failure_modes.2.2.2 404 .malformed (by decide)⟩

/-- C7 (amended): on a downloading-trigger line, a "(current/total)" token
(total nonzero) sets and emits exactly the band fraction
0.1 + (current/total)*0.4; with no such token an "NN%" token sets and emits
0.1 + (NN/100)*0.4; with neither token the retained fraction is unchanged. -/
theorem download_band_per_line (st : InstState) (t : ℚ) (line low : String)
    (hg : instGuardDownloading low = true) :
    (∀ c tot, fracTok line.data = some (c, tot) → tot ≠ 0 →
      ∃ st2 evs, instChain st t line low = (st2, evs, none) ∧
        st2.progress = 1/10 + ((c : ℚ) / (tot : ℚ)) * (4/10) ∧
        Act.progress (1/10 + ((c : ℚ) / (tot : ℚ)) * (4/10))
          (some ("Downloading packages (" ++ toString c ++ "/" ++ toString tot ++ ")..."))
          ∈ evs) ∧
    (∀ p, fracTok line.data = none → percentTok line.data = some p →
      ∃ st2 evs, instChain st t line low = (st2, evs, none) ∧
        st2.progress = 1/10 + ((p : ℚ) / 100) * (4/10) ∧
        Act.progress (1/10 + ((p : ℚ) / 100) * (4/10))
          (some ("Downloading: " ++ formatFloat1 p ++ "%")) ∈ evs) ∧
    (fracTok line.data = none → percentTok line.data = none →
      ∃ st2 evs, instChain st t line low = (st2, evs, none) ∧
        st2.progress = st.progress) := by
  refine ⟨?_, ?_, ?_⟩
  · intro c tot hf ht
    cases hp : percentTok line.data with
    | some p =>
      simp only [instChain, hg, if_true, instDownloadBranch, hp, hf, ht, if_false, ite_false]
      exact ⟨_, _, rfl, rfl, by simp⟩
    | none =>
      simp only [instChain, hg, if_true, instDownloadBranch, hp, hf, ht, if_false, ite_false]
      exact ⟨_, _, rfl, rfl, by simp⟩
  · intro p hf hp
    by_cases hth : t - st.lastProgressUpdate > 1
    · simp only [instChain, hg, if_true, instDownloadBranch, hp, hf, hth, ite_true]
      exact ⟨_, _, rfl, rfl, by simp⟩
    · simp only [instChain, hg, if_true, instDownloadBranch, hp, hf, hth, ite_false]
      exact ⟨_, _, rfl, rfl, by simp⟩
  · intro hf hp
    by_cases hth : t - st.lastProgressUpdate > 1
    · simp only [instChain, hg, if_true, instDownloadBranch, hp, hf, hth, ite_true]
      exact ⟨_, _, rfl, rfl⟩
    · simp only [instChain, hg, if_true, instDownloadBranch, hp, hf, hth, ite_false]
      exact ⟨_, _, rfl, rfl⟩

/-- Witness for C7 (amended) on a concrete downloading line. -/
theorem download_band_per_line_witness :
    (instGuardDownloading "downloading (1/4)" = true) ∧
    (fracTok "downloading (1/4)".data = some (1, 4)) ∧ ((4 : ℕ) ≠ 0) ∧
    (∃ st2 evs, instChain (instInit 0) 0 "downloading (1/4)" "downloading (1/4)"
        = (st2, evs, none) ∧
      st2.progress = 1/10 + ((1 : ℚ) / (4 : ℚ)) * (4/10) ∧
      Act.progress (1/10 + ((1 : ℚ) / (4 : ℚ)) * (4/10))
        (some ("Downloading packages (" ++ toString 1 ++ "/" ++ toString 4 ++ ")...")) ∈ evs) :=
  ⟨by decide, by decide, by decide,
   (download_band_per_line (instInit 0) 0 "downloading (1/4)" "downloading (1/4)"
     (by decide)).1 1 4 (by decide) (by decide)⟩

lemma mesaRemoveEvents_spawnArgv (ls : List String) :
    (mesaRemoveEvents ls).filterMap spawnArgv = [] := by
  induction ls with
  | nil => rfl
  | cons l ls ih =>
    by_cases h : strContains (pyLower l) "removing" = true <;>
      simp [mesaRemoveEvents, h, spawnArgv, ih]

lemma getLast?_cons_append_pair {α : Type} (a x y : α) (l : List α) :
    (a :: (l ++ [x, y])).getLast? = some y := by
  rw [show a :: (l ++ [x, y]) = (a :: (l ++ [x])) ++ [y] by simp]
  exact List.getLast?_concat _

lemma mesaRemoveEvents_countP_complete (ls : List String) :
    (mesaRemoveEvents ls).countP isCompleteAct = 0 := by
  induction ls with
  | nil => rfl
  | cons l ls ih =>
    by_cases h : strContains (pyLower l) "removing" = true <;>
      simp [mesaRemoveEvents, h, isCompleteAct, ih]

/-- C3 (amended): applyDriver is two-phase: the installed subset of the chosen
driver's conflicts, when non-empty, is removed first with argv
`pkexec pacman -Rs --noconfirm <subset>` (the first argv issued); if that
removal exits non-zero, no further argv is issued and the single completion
callback reports false. -/
theorem applyDriver_two_phase (installed : List String) (driverId : String)
    (d : MesaDriver) (rLines : List String) (rc : ℤ) (iOut : MesaRun)
    (hfind : mesaDrivers.find? (fun x => x.id == driverId) = some d)
    (hic : d.conflicts.filter (fun c => installed.contains c) ≠ []) :
    (spawnsOf (applyDriver installed driverId (.ok rLines rc) iOut)).head? =
      some (["pkexec", "pacman", "-Rs", "--noconfirm"]
        ++ d.conflicts.filter (fun c => installed.contains c)) ∧
    (rc ≠ 0 →
      spawnsOf (applyDriver installed driverId (.ok rLines rc) iOut) =
        [["pkexec", "pacman", "-Rs", "--noconfirm"]
          ++ d.conflicts.filter (fun c => installed.contains c)] ∧
      (applyDriver installed driverId (.ok rLines rc) iOut).getLast? =
        some (Act.complete false) ∧
      (applyDriver installed driverId (.ok rLines rc) iOut).countP isCompleteAct = 1) := by
  have hconf : d.conflicts ≠ [] := by
    intro h
    exact hic (by simp [h])
  have htr : applyDriver installed driverId (.ok rLines rc) iOut =
      [Act.progress (1/10) (some ("Applying " ++ d.name ++ " driver...")),
       Act.progress (2/10) (some "Removing conflicting packages..."),
       Act.spawn (["pkexec", "pacman", "-Rs", "--noconfirm"]
         ++ d.conflicts.filter (fun c => installed.contains c))] ++
      (mesaRemoveEvents rLines ++
       (if rc ≠ 0 then
         [Act.progress 0 (some "Failed to remove conflicting packages."),
          Act.complete false]
        else mesaInstallPhase d iOut)) := by
    simp only [applyDriver, hfind, applyDriverThread, hconf, hic, if_true, ite_true,
      ne_eq, not_false_iff]
    simp [hic]
  constructor
  · rw [htr]
    simp [spawnsOf, spawnArgv, mesaRemoveEvents_spawnArgv]
  · intro hrc
    rw [htr]
    rw [if_pos hrc]
    refine ⟨?_, ?_, ?_⟩
    · simp [spawnsOf, spawnArgv, mesaRemoveEvents_spawnArgv]
    · simp only [List.cons_append, List.nil_append, List.getLast?_cons_cons]
      exact getLast?_cons_append_pair _ _ _ _
    · simp [List.countP_append, mesaRemoveEvents_countP_complete, isCompleteAct]

/-- Witness for C3 (amended) at a concrete failing removal phase. -/
theorem applyDriver_two_phase_witness :
    (mesaDrivers.find? (fun x => x.id == "tkg-git")
      = some ⟨"tkg-git", "Tkg-git", ["mesa-tkg-git"], ["mesa", "mesa-amber", "mesa-tkg"],
          "Latest development version with cutting-edge features"⟩) ∧
    ((1 : ℤ) ≠ 0) ∧
    (spawnsOf (applyDriver ["mesa"] "tkg-git" (.ok ["removing mesa"] 1) (.ok [] 0)) =
      [["pkexec", "pacman", "-Rs", "--noconfirm", "mesa"]] ∧
     (applyDriver ["mesa"] "tkg-git" (.ok ["removing mesa"] 1) (.ok [] 0)).getLast? =
       some (Act.complete false) ∧
     (applyDriver ["mesa"] "tkg-git" (.ok ["removing mesa"] 1) (.ok [] 0)).countP
       isCompleteAct = 1) := by
  refine ⟨by decide, by decide, ?_⟩
  have h := (applyDriver_two_phase ["mesa"] "tkg-git"
    ⟨"tkg-git", "Tkg-git", ["mesa-tkg-git"], ["mesa", "mesa-amber", "mesa-tkg"],
      "Latest development version with cutting-edge features"⟩
    ["removing mesa"] 1 (.ok [] 0) (by decide) (by decide)).2 (by decide)
  simpa using h

lemma instDownloadBranch_no_complete (st : InstState) (t : ℚ) (line : String) (b : Bool) :
    Act.complete b ∉ (instDownloadBranch st t line).2.1 := by
  unfold instDownloadBranch
  rcases hp : percentTok line.data with _ | p <;>
    rcases hf : fracTok line.data with _ | ⟨c, tot⟩ <;>
    simp only [hp, hf] <;>
    split_ifs <;> simp

lemma instChain_no_complete (st : InstState) (t : ℚ) (line low : String) (b : Bool) :
    Act.complete b ∉ (instChain st t line low).2.1 := by
  unfold instChain
  split_ifs <;> first
    | exact instDownloadBranch_no_complete st t line b
    | simp

lemma instLineStep_no_complete (st : InstState) (tl : TimedLine) (b : Bool) :
    Act.complete b ∉ (instLineStep st tl).2.1 := by
  have h := instChain_no_complete
    (if pyStrip tl.raw ≠ "" then { st with lastLineTime := tl.t } else st)
    tl.t (pyStrip tl.raw) (pyLower (pyStrip tl.raw)) b
  simp only [instLineStep]
  rcases hc : instChain
      (if pyStrip tl.raw ≠ "" then { st with lastLineTime := tl.t } else st)
      tl.t (pyStrip tl.raw) (pyLower (pyStrip tl.raw)) with ⟨st2, ev1, err⟩
  rw [hc] at h
  cases err with
  | some m =>
    simp only []
    intro hm
    rcases List.mem_append.mp hm with hm | hm
    · split_ifs at hm <;> simp at hm
    · exact h hm
  | none =>
    simp only []
    intro hm
    rcases List.mem_append.mp hm with hm | hm
    · rcases List.mem_append.mp hm with hm | hm
      · rcases List.mem_append.mp hm with hm | hm
        · rcases List.mem_append.mp hm with hm | hm
          · split_ifs at hm <;> simp at hm
          · exact h hm
        · rcases hk : pkgTok (pyStrip tl.raw).data with _ | ⟨nm, ver⟩ <;>
            rw [hk] at hm <;> split_ifs at hm <;> simp at hm
      · split_ifs at hm <;> simp at hm
    · split_ifs at hm <;> simp at hm

lemma instRunLines_no_complete (lines : List TimedLine) :
    ∀ st b, Act.complete b ∉ (instRunLines st lines).1 := by
  induction lines with
  | nil => intro st b; simp [instRunLines]
  | cons l ls ih =>
    intro st b
    have hstep := instLineStep_no_complete st l b
    simp only [instRunLines]
    rcases hs : instLineStep st l with ⟨st2, evs, err⟩
    rw [hs] at hstep
    cases err with
    | none =>
      intro hm
      rcases List.mem_append.mp hm with hm | hm
      · exact hstep hm
      · exact ih st2 b hm
    | some m => exact hstep

lemma countP_complete_eq_zero {l : List Act} (h : ∀ b, Act.complete b ∉ l) :
    l.countP isCompleteAct = 0 := by
  rw [List.countP_eq_zero]
  intro a ha
  cases a with
  | spawn v => simp [isCompleteAct]
  | progress f s => simp [isCompleteAct]
  | output s => simp [isCompleteAct]
  | complete b => exact absurd ha (h b)

lemma installPre_countP (fp : String) (mods : List String) :
    (installPre fp mods).countP isCompleteAct = 0 := by
  simp [installPre, isCompleteAct]

lemma getLast?_append_triple {α : Type} (l m : List α) (x y z : α) :
    (l ++ (m ++ [x, y, z])).getLast? = some z := by
  rw [show l ++ (m ++ [x, y, z]) = (l ++ (m ++ [x, y])) ++ [z] by simp]
  exact List.getLast?_concat _

/-- Getting the ok-run trace shape of `_install_kernel_thread` with no raise. -/
lemma installThread_ok_shape (fp : String) (mods : List String) (t0 : ℚ)
    (lines : List TimedLine) (code : ℤ)
    (hok : (instRunLines (instInit t0) lines).2 = none) :
    installKernelThread fp mods t0 (.ok lines code) =
      installPre fp mods ++
      Act.output "Subprocess created successfully..." ::
      ((instRunLines (instInit t0) lines).1 ++
        ([Act.output "Process completed, checking exit code..."] ++
         (if code == 0 then
           [Act.progress 1 (some "Kernel installation complete!"),
            Act.output "✅ Installation completed successfully."]
          else
           [Act.progress 0 (some "Kernel installation failed."),
            Act.output ("❌ Installation failed with return code " ++ toString code ++ ".")]) ++
         [Act.complete (code == 0)])) := by
  rcases hr : instRunLines (instInit t0) lines with ⟨evs, err⟩
  rw [hr] at hok
  subst hok
  simp only [installKernelThread, hr]
  simp

/-- C2 (amended): the completion callback fires exactly once, always last;
with no in-loop exception its flag equals (exit code == 0); a spawn failure
yields progress(0, error), the error output, then completion false. -/
theorem completion_exactly_once_last (fp : String) (mods : List String) (t0 : ℚ)
    (sp : SpawnOutcome) :
    ((installKernelThread fp mods t0 sp).countP isCompleteAct = 1) ∧
    (∃ b, (installKernelThread fp mods t0 sp).getLast? = some (Act.complete b)) ∧
    (∀ lines code, sp = .ok lines code →
      (instRunLines (instInit t0) lines).2 = none →
      (installKernelThread fp mods t0 sp).getLast? = some (Act.complete (code == 0))) ∧
    (∀ e, sp = .fail e →
      installKernelThread fp mods t0 sp =
        installPre fp mods ++ [Act.progress 0 (some ("Error: " ++ e)),
          Act.output ("❌ Error: " ++ e), Act.complete false]) := by
  cases sp with
  | fail e =>
    refine ⟨?_, ⟨false, ?_⟩, ?_, ?_⟩
    · simp [installKernelThread, List.countP_append, installPre_countP,
        List.countP_cons, isCompleteAct]
    · show (installPre fp mods ++ [Act.progress 0 (some ("Error: " ++ e)),
        Act.output ("❌ Error: " ++ e), Act.complete false]).getLast? = _
      rw [show installPre fp mods ++ [Act.progress 0 (some ("Error: " ++ e)),
        Act.output ("❌ Error: " ++ e), Act.complete false]
        = (installPre fp mods ++ [Act.progress 0 (some ("Error: " ++ e)),
            Act.output ("❌ Error: " ++ e)]) ++ [Act.complete false] by simp]
      exact List.getLast?_concat _
    · intro lines code h; cases h
    · intro e' h; cases h; rfl
  | ok lines code =>
    rcases hr : instRunLines (instInit t0) lines with ⟨evs, err⟩
    have hnc : ∀ b, Act.complete b ∉ evs := by
      intro b
      have h := instRunLines_no_complete lines (instInit t0) b
      rw [hr] at h
      exact h
    cases err with
    | some m =>
      have htr : installKernelThread fp mods t0 (.ok lines code) =
          installPre fp mods ++
          Act.output "Subprocess created successfully..." ::
          (evs ++ [Act.progress 0 (some ("Error: " ++ m)),
            Act.output ("❌ Error: " ++ m), Act.complete false]) := by
        simp only [installKernelThread, hr]
      refine ⟨?_, ⟨false, ?_⟩, ?_, ?_⟩
      · rw [htr]
        simp [List.countP_append, installPre_countP, List.countP_cons,
          isCompleteAct, countP_complete_eq_zero hnc]
      · rw [htr, show Act.output "Subprocess created successfully..." ::
          (evs ++ [Act.progress 0 (some ("Error: " ++ m)),
            Act.output ("❌ Error: " ++ m), Act.complete false])
          = [Act.output "Subprocess created successfully..."] ++
            (evs ++ [Act.progress 0 (some ("Error: " ++ m)),
              Act.output ("❌ Error: " ++ m), Act.complete false]) by simp,
          ← List.append_assoc]
        exact getLast?_append_triple _ _ _ _ _
      · intro lines' code' h hnone
        cases h
        rw [hr] at hnone
        cases hnone
      · intro e h; cases h
    | none =>
      have hshape := installThread_ok_shape fp mods t0 lines code (by rw [hr])
      rw [hr] at hshape
      refine ⟨?_, ⟨(code == 0), ?_⟩, ?_, ?_⟩
      · rw [hshape]
        by_cases hc : (code == 0) = true <;>
          simp [hc, List.countP_append, installPre_countP, List.countP_cons,
            isCompleteAct, countP_complete_eq_zero hnc]
      · rw [hshape]
        rw [show Act.output "Subprocess created successfully..." ::
            (evs ++ ([Act.output "Process completed, checking exit code..."] ++
              (if code == 0 then
                [Act.progress 1 (some "Kernel installation complete!"),
                 Act.output "✅ Installation completed successfully."]
               else
                [Act.progress 0 (some "Kernel installation failed."),
                 Act.output ("❌ Installation failed with return code " ++ toString code ++ ".")]) ++
              [Act.complete (code == 0)]))
          = (Act.output "Subprocess created successfully..." ::
              (evs ++ ([Act.output "Process completed, checking exit code..."] ++
              (if code == 0 then
                [Act.progress 1 (some "Kernel installation complete!"),
                 Act.output "✅ Installation completed successfully."]
               else
                [Act.progress 0 (some "Kernel installation failed."),
                 Act.output ("❌ Installation failed with return code " ++ toString code ++ ".")]))))
            ++ [Act.complete (code == 0)] by simp, ← List.append_assoc]
        exact List.getLast?_concat _
      · intro lines' code' h hnone
        cases h
        rw [hshape]
        rw [show Act.output "Subprocess created successfully..." ::
            (evs ++ ([Act.output "Process completed, checking exit code..."] ++
              (if code == 0 then
                [Act.progress 1 (some "Kernel installation complete!"),
                 Act.output "✅ Installation completed successfully."]
               else
                [Act.progress 0 (some "Kernel installation failed."),
                 Act.output ("❌ Installation failed with return code " ++ toString code ++ ".")]) ++
              [Act.complete (code == 0)]))
          = (Act.output "Subprocess created successfully..." ::
              (evs ++ ([Act.output "Process completed, checking exit code..."] ++
              (if code == 0 then
                [Act.progress 1 (some "Kernel installation complete!"),
                 Act.output "✅ Installation completed successfully."]
               else
                [Act.progress 0 (some "Kernel installation failed."),
                 Act.output ("❌ Installation failed with return code " ++ toString code ++ ".")]))))
            ++ [Act.complete (code == 0)] by simp, ← List.append_assoc]
        exact List.getLast?_concat _
      · intro e h; cases h

/-- Witness for C2 (amended) at a concrete spawn failure and a concrete
failing exit code. -/
theorem completion_exactly_once_last_witness :
    ((installKernelThread "linux61" [] 0 (.fail "boom")).countP isCompleteAct = 1) ∧
    (installKernelThread "linux61" [] 0 (.fail "boom") =
      installPre "linux61" [] ++ [Act.progress 0 (some ("Error: " ++ "boom")),
        Act.output ("❌ Error: " ++ "boom"), Act.complete false]) ∧
    ((installKernelThread "linux61" [] 0 (.ok [] 5)).getLast?
      = some (Act.complete ((5 : ℤ) == 0))) :=
  ⟨(completion_exactly_once_last "linux61" [] 0 (.fail "boom")).1,
   (completion_exactly_once_last "linux61" [] 0 (.fail "boom")).2.2.2 "boom" rfl,
   (completion_exactly_once_last "linux61" [] 0 (.ok [] 5)).2.2.1 [] 5 rfl (by rfl)⟩

lemma instLineStep_forwards (st : InstState) (tl : TimedLine)
    (h : pyStrip tl.raw ≠ "") :
    Act.output (pyStrip tl.raw) ∈ (instLineStep st tl).2.1 := by
  simp only [instLineStep]
  rcases hc : instChain
      (if pyStrip tl.raw ≠ "" then { st with lastLineTime := tl.t } else st)
      tl.t (pyStrip tl.raw) (pyLower (pyStrip tl.raw)) with ⟨st2, ev1, err⟩
  cases err <;> simp [h]

lemma instRunLines_forwards (lines : List TimedLine) :
    ∀ st, (instRunLines st lines).2 = none →
      ∀ tl ∈ lines, pyStrip tl.raw ≠ "" →
        Act.output (pyStrip tl.raw) ∈ (instRunLines st lines).1 := by
  induction lines with
  | nil =>
    intro st _ tl h
    cases h
  | cons l ls ih =>
    intro st hnone tl hmem hne
    simp only [instRunLines] at hnone ⊢
    rcases hs : instLineStep st l with ⟨st2, evs, err⟩
    rw [hs] at hnone
    cases err with
    | some m => exact Option.noConfusion hnone
    | none =>
      cases hmem with
      | head =>
        have hm := instLineStep_forwards st l hne
        rw [hs] at hm
        exact List.mem_append_left _ hm
      | tail _ hmem =>
        exact List.mem_append_right _ (ih st2 hnone tl hmem hne)

/-- C9 (amended): with no in-loop exception, every nonempty line carrying an
"error:" marker is forwarded verbatim through the output callback, and the
completion flag is (exit code == 0) regardless of how many such lines
occurred. -/
theorem error_lines_forwarded_exit_decides (fp : String) (mods : List String)
    (t0 : ℚ) (lines : List TimedLine) (code : ℤ)
    (hok : (instRunLines (instInit t0) lines).2 = none) :
    (∀ tl ∈ lines, pyStrip tl.raw ≠ "" →
      strContains (pyLower (pyStrip tl.raw)) "error:" = true →
      Act.output (pyStrip tl.raw) ∈ installKernelThread fp mods t0 (.ok lines code)) ∧
    (installKernelThread fp mods t0 (.ok lines code)).getLast?
      = some (Act.complete (code == 0)) := by
  have hshape := installThread_ok_shape fp mods t0 lines code hok
  constructor
  · intro tl hmem hne _
    rw [hshape]
    have hm := instRunLines_forwards lines (instInit t0) hok tl hmem hne
    refine List.mem_append_right _ ?_
    exact List.mem_cons_of_mem _ (List.mem_append_left _ hm)
  · rw [hshape]
    rw [show Act.output "Subprocess created successfully..." ::
        ((instRunLines (instInit t0) lines).1 ++
          ([Act.output "Process completed, checking exit code..."] ++
          (if code == 0 then
            [Act.progress 1 (some "Kernel installation complete!"),
             Act.output "✅ Installation completed successfully."]
           else
            [Act.progress 0 (some "Kernel installation failed."),
             Act.output ("❌ Installation failed with return code " ++ toString code ++ ".")]) ++
          [Act.complete (code == 0)]))
      = (Act.output "Subprocess created successfully..." ::
          ((instRunLines (instInit t0) lines).1 ++
            ([Act.output "Process completed, checking exit code..."] ++
            (if code == 0 then
              [Act.progress 1 (some "Kernel installation complete!"),
               Act.output "✅ Installation completed successfully."]
             else
              [Act.progress 0 (some "Kernel installation failed."),
               Act.output ("❌ Installation failed with return code " ++ toString code ++ ".")]))))
        ++ [Act.complete (code == 0)] by simp, ← List.append_assoc]
    exact List.getLast?_concat _

/-- Witness for C9 (amended) on a concrete error line and failing exit code. -/
theorem error_lines_forwarded_exit_decides_witness :
    ((instRunLines (instInit 0) [⟨0, "error: broken dependency"⟩]).2 = none) ∧
    (Act.output (pyStrip "error: broken dependency")
      ∈ installKernelThread "linux61" [] 0 (.ok [⟨0, "error: broken dependency"⟩] 2)) ∧
    ((installKernelThread "linux61" [] 0
        (.ok [⟨0, "error: broken dependency"⟩] 2)).getLast?
      = some (Act.complete ((2 : ℤ) == 0))) :=
  ⟨by decide,
   (error_lines_forwarded_exit_decides "linux61" [] 0 [⟨0, "error: broken dependency"⟩] 2
     (by decide)).1 ⟨0, "error: broken dependency"⟩ (by decide) (by decide) (by decide),
   (error_lines_forwarded_exit_decides "linux61" [] 0 [⟨0, "error: broken dependency"⟩] 2
     (by decide)).2⟩

/-- The guard of the removing branch of `_remove_kernel_thread`, as an
expression of the lowered stripped line. -/
def remRemovingFires (low : String) : Bool :=
  !remGuardDeps low && !remGuardConfl low && remGuardRemoving low

lemma isRemovingLine_eq (tl : TimedLine) :
    isRemovingLine tl = remRemovingFires (pyLower (pyStrip tl.raw)) := rfl

lemma remChain_inv (n : ℕ) (st : RemState) (line low : String)
    (hn : 0 < n) (h0 : 0 ≤ st.progress) (h1 : st.progress ≤ 1)
    (hk : remRemovingFires low = true → st.packagesProcessed + 1 ≤ n) :
    (0 ≤ (remChain n st line low).1.progress ∧ (remChain n st line low).1.progress ≤ 1) ∧
    ((remRemovingFires low = true →
        (remChain n st line low).1.packagesProcessed = st.packagesProcessed + 1) ∧
     (remRemovingFires low = false →
        (remChain n st line low).1.packagesProcessed = st.packagesProcessed)) ∧
    (∀ f s, Act.progress f s ∈ (remChain n st line low).2 → 0 ≤ f ∧ f ≤ 1) := by
  unfold remChain
  split_ifs with hg1 hg2 hg3 hg4 hg5 hg6 hg7
  · refine ⟨⟨by norm_num, by norm_num⟩,
      ⟨fun h => absurd h (by simp [remRemovingFires, hg1]), fun _ => rfl⟩, ?_⟩
    intro f s hm
    simp only [List.mem_singleton, Act.progress.injEq] at hm
    rcases hm with ⟨rfl, -⟩
    norm_num
  · refine ⟨⟨by norm_num, by norm_num⟩,
      ⟨fun h => absurd h (by simp [remRemovingFires, hg2]), fun _ => rfl⟩, ?_⟩
    intro f s hm
    simp only [List.mem_singleton, Act.progress.injEq] at hm
    rcases hm with ⟨rfl, -⟩
    norm_num
  · have hfires : remRemovingFires low = true := by
      simp [remRemovingFires, hg1, hg2, hg3]
    have hkn : st.packagesProcessed + 1 ≤ n := hk hfires
    have hcast : ((st.packagesProcessed + 1 : ℕ) : ℚ) ≤ (n : ℚ) := by exact_mod_cast hkn
    have hnq : (0 : ℚ) < (n : ℚ) := by exact_mod_cast hn
    have hdiv1 : ((st.packagesProcessed + 1 : ℕ) : ℚ) / (n : ℚ) ≤ 1 :=
      (div_le_one hnq).mpr hcast
    have hdiv0 : (0 : ℚ) ≤ ((st.packagesProcessed + 1 : ℕ) : ℚ) / (n : ℚ) := by positivity
    have hmul : ((st.packagesProcessed + 1 : ℕ) : ℚ) / (n : ℚ) * (4/10) ≤ 4/10 := by
      have := mul_le_mul_of_nonneg_right hdiv1 (by norm_num : (0:ℚ) ≤ 4/10)
      linarith
    have hpr0 : (0 : ℚ) ≤ 3/10 + ((st.packagesProcessed + 1 : ℕ) : ℚ) / (n : ℚ) * (4/10) := by
      nlinarith
    have hpr1 : 3/10 + ((st.packagesProcessed + 1 : ℕ) : ℚ) / (n : ℚ) * (4/10) ≤ 1 := by
      linarith
    refine ⟨⟨hpr0, hpr1⟩, ⟨fun _ => rfl, fun h => absurd hfires (by simp [h])⟩, ?_⟩
    intro f s hm
    simp only [List.mem_singleton, Act.progress.injEq] at hm
    rcases hm with ⟨rfl, -⟩
    exact ⟨hpr0, hpr1⟩
  · refine ⟨⟨by norm_num, by norm_num⟩,
      ⟨fun h => absurd h (by simp [remRemovingFires, hg3]), fun _ => rfl⟩, ?_⟩
    intro f s hm
    simp only [List.mem_singleton, Act.progress.injEq] at hm
    rcases hm with ⟨rfl, -⟩
    norm_num
  · refine ⟨⟨by norm_num, by norm_num⟩,
      ⟨fun h => absurd h (by simp [remRemovingFires, hg3]), fun _ => rfl⟩, ?_⟩
    intro f s hm
    simp only [List.mem_singleton, Act.progress.injEq] at hm
    rcases hm with ⟨rfl, -⟩
    norm_num
  · refine ⟨⟨h0, h1⟩,
      ⟨fun h => absurd h (by simp [remRemovingFires, hg3]), fun _ => rfl⟩, ?_⟩
    intro f s hm
    simp at hm
  · refine ⟨⟨by norm_num, by norm_num⟩,
      ⟨fun h => absurd h (by simp [remRemovingFires, hg3]), fun _ => rfl⟩, ?_⟩
    intro f s hm
    simp only [List.mem_singleton, Act.progress.injEq] at hm
    rcases hm with ⟨rfl, -⟩
    norm_num
  · refine ⟨⟨h0, h1⟩,
      ⟨fun h => absurd h (by simp [remRemovingFires, hg3]), fun _ => rfl⟩, ?_⟩
    intro f s hm
    simp at hm

lemma remPeriodic_state (st : RemState) (t : ℚ) :
    (remPeriodic st t).1.progress = st.progress ∧
    (remPeriodic st t).1.packagesProcessed = st.packagesProcessed := by
  unfold remPeriodic
  split_ifs <;> exact ⟨rfl, rfl⟩

lemma remPeriodic_events (st : RemState) (t : ℚ)
    (h0 : 0 ≤ st.progress) (h1 : st.progress ≤ 1) :
    ∀ f s, Act.progress f s ∈ (remPeriodic st t).2 → 0 ≤ f ∧ f ≤ 1 := by
  unfold remPeriodic
  split_ifs <;> intro f s hm
  · simp only [List.mem_singleton, Act.progress.injEq] at hm
    rcases hm with ⟨rfl, -⟩
    exact ⟨h0, h1⟩
  · simp at hm

lemma remLiveness_state (st : RemState) (t : ℚ) :
    (remLiveness st t).1.progress = st.progress ∧
    (remLiveness st t).1.packagesProcessed = st.packagesProcessed := by
  unfold remLiveness
  split_ifs <;> exact ⟨rfl, rfl⟩

lemma remLiveness_events (st : RemState) (t : ℚ) :
    ∀ f s, Act.progress f s ∉ (remLiveness st t).2 := by
  unfold remLiveness
  split_ifs <;> intro f s hm <;> simp at hm

lemma remLineStep_inv (n : ℕ) (st : RemState) (tl : TimedLine)
    (hn : 0 < n) (h0 : 0 ≤ st.progress) (h1 : st.progress ≤ 1)
    (hk : isRemovingLine tl = true → st.packagesProcessed + 1 ≤ n) :
    (0 ≤ (remLineStep n st tl).1.progress ∧ (remLineStep n st tl).1.progress ≤ 1) ∧
    ((isRemovingLine tl = true →
        (remLineStep n st tl).1.packagesProcessed = st.packagesProcessed + 1) ∧
     (isRemovingLine tl = false →
        (remLineStep n st tl).1.packagesProcessed = st.packagesProcessed)) ∧
    (∀ f s, Act.progress f s ∈ (remLineStep n st tl).2 → 0 ≤ f ∧ f ≤ 1) := by
  have hst1p : (if pyStrip tl.raw ≠ "" then { st with lastLineTime := tl.t } else st).progress
      = st.progress := by split_ifs <;> rfl
  have hst1k : (if pyStrip tl.raw ≠ "" then { st with lastLineTime := tl.t } else st).packagesProcessed
      = st.packagesProcessed := by split_ifs <;> rfl
  have hch := remChain_inv n
    (if pyStrip tl.raw ≠ "" then { st with lastLineTime := tl.t } else st)
    (pyStrip tl.raw) (pyLower (pyStrip tl.raw)) hn
    (by rw [hst1p]; exact h0) (by rw [hst1p]; exact h1)
    (by rw [hst1k]; rw [← isRemovingLine_eq]; exact hk)
  simp only [remLineStep]
  rcases hc : remChain n
      (if pyStrip tl.raw ≠ "" then { st with lastLineTime := tl.t } else st)
      (pyStrip tl.raw) (pyLower (pyStrip tl.raw)) with ⟨st2, ev1⟩
  rw [hc] at hch
  have hp2 := remPeriodic_state st2 tl.t
  have hpe := remPeriodic_events st2 tl.t hch.1.1 hch.1.2
  rcases hp : remPeriodic st2 tl.t with ⟨s3, ev3⟩
  rw [hp] at hp2 hpe
  have hl2 := remLiveness_state s3 tl.t
  have hle := remLiveness_events s3 tl.t
  rcases hl : remLiveness s3 tl.t with ⟨s4, ev4⟩
  rw [hl] at hl2 hle
  refine ⟨?_, ?_, ?_⟩
  · rw [hl2.1, hp2.1]
    exact hch.1
  · rw [hl2.2, hp2.2, hst1k] at *
    rw [isRemovingLine_eq]
    exact hch.2.1
  · intro f s hm
    rcases List.mem_append.mp hm with hm | hm
    · rcases List.mem_append.mp hm with hm | hm
      · rcases List.mem_append.mp hm with hm | hm
        · split_ifs at hm <;> simp at hm
        · exact hch.2.2 f s hm
      · exact hpe f s hm
    · exact absurd hm (hle f s)

lemma remRunLines_inv (n : ℕ) (lines : List TimedLine) :
    ∀ st : RemState, 0 < n → 0 ≤ st.progress → st.progress ≤ 1 →
      st.packagesProcessed + lines.countP isRemovingLine ≤ n →
      ∀ f s, Act.progress f s ∈ (remRunLines n st lines).2 → 0 ≤ f ∧ f ≤ 1 := by
  induction lines with
  | nil =>
    intro st _ _ _ _ f s hm
    simp [remRunLines] at hm
  | cons l ls ih =>
    intro st hn h0 h1 hcount f s hm
    rw [List.countP_cons] at hcount
    have hk : isRemovingLine l = true → st.packagesProcessed + 1 ≤ n := by
      intro hr
      rw [hr] at hcount
      simp at hcount
      omega
    have hstep := remLineStep_inv n st l hn h0 h1 hk
    simp only [remRunLines] at hm
    rcases hs : remLineStep n st l with ⟨st2, evs⟩
    rw [hs] at hstep
    rcases hrun : remRunLines n st2 ls with ⟨st3, rest⟩
    rw [hs, hrun] at hm
    rcases List.mem_append.mp hm with hm | hm
    · exact hstep.2.2 f s hm
    · have hcount2 : st2.packagesProcessed + ls.countP isRemovingLine ≤ n := by
        by_cases hr : isRemovingLine l = true
        · rw [hstep.2.1.1 hr]
          rw [hr] at hcount
          simp at hcount
          omega
        · rw [Bool.not_eq_true] at hr
          rw [hstep.2.1.2 hr]
          rw [hr] at hcount
          simp at hcount
          omega
      have := ih st2 hn hstep.1.1 hstep.1.2 hcount2 f s
      rw [hrun] at this
      exact this hm

/-- C1 (amended): in kernel removal, when the number of lines on which the
removing branch fires does not exceed the number of packages being removed,
every fraction passed to the progress callback lies in [0, 1]. -/
theorem removal_fractions_bounded (packages : List String) (t0 : ℚ)
    (lines : List TimedLine) (code : ℤ)
    (hne : packages ≠ [])
    (hcount : lines.countP isRemovingLine ≤ packages.length) :
    ∀ f s, Act.progress f s ∈ removeKernelThread packages t0 (.ok lines code) →
      0 ≤ f ∧ f ≤ 1 := by
  intro f s hm
  have hn : 0 < packages.length := List.length_pos.mpr hne
  have hshape : removeKernelThread packages t0 (.ok lines code) =
      [Act.output "Thread started for kernel removal...",
       Act.progress (1/10)
         (some ("Starting removal of " ++ packages.headD "" ++ " and modules...")),
       Act.output ("Running command: " ++ String.intercalate " " (removeCmd packages)),
       Act.output "Creating subprocess...",
       Act.spawn (removeCmd packages)] ++
      Act.output "Subprocess created successfully..." ::
      ((remRunLines packages.length ⟨1/10, t0, t0, 0, 0⟩ lines).2 ++
       [Act.output "Process completed, checking exit code..."] ++
       (if code == 0 then
         [Act.progress 1 (some "Kernel removal complete!"),
          Act.output "Removal completed successfully."]
        else
         [Act.progress 0 (some "Kernel removal failed."),
          Act.output ("Removal failed with return code " ++ toString code ++ ".")]) ++
       [Act.complete (code == 0)]) := by
    simp only [removeKernelThread, hne]
    simp
  rw [hshape] at hm
  have hrun : ∀ f' s', Act.progress f' s'
      ∈ (remRunLines packages.length ⟨1/10, t0, t0, 0, 0⟩ lines).2 → 0 ≤ f' ∧ f' ≤ 1 := by
    intro f' s'
    exact remRunLines_inv packages.length lines ⟨1/10, t0, t0, 0, 0⟩ hn
      (by norm_num) (by norm_num) (by simpa using hcount) f' s'
  rcases List.mem_append.mp hm with hm | hm
  · simp only [List.mem_cons, List.not_mem_nil, or_false, Act.progress.injEq] at hm
    rcases hm with hm | hm | hm | hm | hm
    · cases hm
    · rcases hm with ⟨rfl, -⟩; norm_num
    · cases hm
    · cases hm
    · cases hm
  · rcases List.mem_cons.mp hm with hm | hm
    · cases hm
    · rcases List.mem_append.mp hm with hm | hm
      · rcases List.mem_append.mp hm with hm | hm
        · rcases List.mem_append.mp hm with hm | hm
          · exact hrun f s hm
          · simp at hm
        · by_cases hc : (code == 0) = true
          · rw [if_pos hc] at hm
            simp only [List.mem_cons, List.not_mem_nil, or_false, Act.progress.injEq] at hm
            rcases hm with ⟨rfl, -⟩ | hm
            · norm_num
            · cases hm
          · rw [if_neg hc] at hm
            simp only [List.mem_cons, List.not_mem_nil, or_false, Act.progress.injEq] at hm
            rcases hm with ⟨rfl, -⟩ | hm
            · norm_num
            · cases hm
      · simp at hm

/-- Witness for C1 (amended) on a one-package removal with one removing line. -/
theorem removal_fractions_bounded_witness :
    ((["linux61"] : List String) ≠ []) ∧
    ([(⟨1, "removing linux61..."⟩ : TimedLine)].countP isRemovingLine
      ≤ (["linux61"] : List String).length) ∧
    (0 ≤ (7/10 : ℚ) ∧ (7/10 : ℚ) ≤ 1) :=
  ⟨by decide, by decide,
   removal_fractions_bounded ["linux61"] 0 [⟨1, "removing linux61..."⟩] 0
     (by decide) (by decide) (7/10) (some "Removing packages (1/1)...") (by decide)⟩

end CKM
